import Mathlib

/-!
Verification development for the Superstore sales-analysis pipeline
(analyze_sales_data.py).

The pipeline is embedded shallowly: a table is a list of typed rows, the
monetary field is a rational number, and a nullable pandas cell is an
Option. The two library parsers (pd.to_numeric with errors="coerce" and
pd.to_datetime with errors="coerce") are black-box row-level parsers, so
the pipeline definitions are parametrised over them; concrete toy parsers
are supplied for evaluating the pipeline on sample inputs.
-/

attribute [local semireducible] Rat.add Rat.sub Rat.mul Rat.inv Rat.ofScientific

/-- A calendar date as produced by pd.to_datetime. -/
structure Date where
  year : Int
  month : Nat
  day : Nat
deriving DecidableEq, Repr

/-- One raw CSV record, before cleaning: every cell is a string. -/
structure RawRow where
  Order_Date : String
  Sales : String
  Region : String
  Customer_ID : String
  Customer_Name : String
deriving DecidableEq, Repr

/-- One cleaned record: Sales is numeric and non-null, Order_Date may be
null (NaT), the derived Year and Month are null exactly when the date is,
and Order_Month holds the string produced by
dt.to_period("M").astype(str), which is the literal string "NaT" for an
unparseable date (astype(str) stringifies NaT, it does not keep it null). -/
structure Row where
  Order_Date : Option Date
  Sales : ℚ
  Region : String
  Customer_ID : String
  Customer_Name : String
  Year : Option Int
  Month : Option Nat
  Order_Month : Option String
deriving DecidableEq, Repr

/-- Zero-pad a month number to two digits, as in a period string. -/
def pad2 (n : Nat) : String :=
  if n < 10 then ("0") ++ toString n else toString n

/-- The "YYYY-MM" key a (year, month) pair renders to. -/
def fmtPair (y : Int) (m : Nat) : String :=
  toString y ++ ("-") ++ pad2 m

/-- The "YYYY-MM" key of a date, as str(date.to_period("M")). -/
def fmtYM (d : Date) : String := fmtPair d.year d.month

/-- Keep the first occurrence of each value, dropping later duplicates:
the semantics of DataFrame.drop_duplicates (keep="first"). -/
def dedupFirst {α : Type} [DecidableEq α] : List α → List α
  | [] => []
  | a :: l => a :: (dedupFirst l).filter (fun b => decide (b ≠ a))

/-- The cleaned row derived from a raw row whose Sales parsed to s:
Order_Date is the parsed date (null on failure), and the three derived
calendar columns are computed from it as in clean_data. -/
def deriveRow (pdate : String → Option Date) (r : RawRow) (s : ℚ) : Row :=
  { Order_Date := pdate r.Order_Date
    Sales := s
    Region := r.Region
    Customer_ID := r.Customer_ID
    Customer_Name := r.Customer_Name
    Year := (pdate r.Order_Date).map Date.year
    Month := (pdate r.Order_Date).map Date.month
    Order_Month := some (match pdate r.Order_Date with
      | some dt => fmtYM dt
      | none => ("NaT")) }

/-- clean_data: coerce Sales to numeric and drop rows where it fails,
parse Order_Date (failures become null), add Year, Month and Order_Month,
then drop exact duplicate rows. psales and pdate are the row-level
behaviours of pd.to_numeric and pd.to_datetime with errors="coerce". -/
def clean_data (psales : String → Option ℚ) (pdate : String → Option Date)
    (df : List RawRow) : List Row :=
  dedupFirst (df.filterMap (fun r => (psales r.Sales).map (deriveRow pdate r)))

/-- The KPI record computed by compute_kpis. The mean of an empty column
is null, hence the Option on Average_Order_Value. -/
structure Kpis where
  Total_Sales : ℚ
  Total_Orders : Nat
  Unique_Customers : Nat
  Average_Order_Value : Option ℚ
deriving DecidableEq, Repr

/-- compute_kpis: total sales, row count, distinct customer ids, mean sale. -/
def compute_kpis (df : List Row) : Kpis :=
  { Total_Sales := (df.map Row.Sales).sum
    Total_Orders := df.length
    Unique_Customers := (dedupFirst (df.map Row.Customer_ID)).length
    Average_Order_Value :=
      if df.length = 0 then none
      else some ((df.map Row.Sales).sum / (df.length : ℚ)) }

/-- Insert into a sorted list: the first position whose element is not
r-below the new one. -/
def insertOrd {α : Type} (r : α → α → Prop) [DecidableRel r] (a : α) :
    List α → List α
  | [] => [a]
  | b :: l => if r a b then a :: b :: l else b :: insertOrd r a l

/-- Stable insertion sort by a decidable relation, modelling
DataFrame.sort_values on the relevant column. -/
def sortOrd {α : Type} (r : α → α → Prop) [DecidableRel r] : List α → List α
  | [] => []
  | a :: l => insertOrd r a (sortOrd r l)

/-- groupby(key)[val].sum(): one pair per distinct key (first-occurrence
order), carrying the sum of val over the rows with that key. -/
def groupSum {α κ : Type} [DecidableEq κ] (key : α → κ) (val : α → ℚ)
    (l : List α) : List (κ × ℚ) :=
  (dedupFirst (l.map key)).map
    (fun k => (k, ((l.filter (fun a => decide (key a = k))).map val).sum))

/-- Lexicographic comparison of strings by Unicode code point, as Python
compares the year-month keys: is the first at most the second? -/
def strLeB : List Char → List Char → Bool
  | [], _ => true
  | _ :: _, [] => false
  | a :: as, b :: bs =>
    if a.toNat < b.toNat then true
    else if b.toNat < a.toNat then false
    else strLeB as bs

/-- The propositional form of the string comparison. -/
def strLe (s t : String) : Prop := strLeB s.data t.data = true

instance (s t : String) : Decidable (strLe s t) :=
  inferInstanceAs (Decidable (strLeB s.data t.data = true))

/-- Ascending comparison on the key of a keyed-sum pair. -/
def leKey (a b : String × ℚ) : Prop := strLe a.1 b.1

instance : DecidableRel leKey :=
  fun a b => inferInstanceAs (Decidable (strLe a.1 b.1))

/-- Descending comparison on the summed-value component of a pair. -/
def descSnd {κ : Type} (a b : κ × ℚ) : Prop := b.2 ≤ a.2

instance {κ : Type} : DecidableRel (descSnd (κ := κ)) :=
  fun a b => inferInstanceAs (Decidable (b.2 ≤ a.2))

/-- The (Order_Month, Sales) pairs groupby sees: groupby drops rows whose
key is null (Order_Month never is, since astype(str) yields "NaT"). -/
def monthlyPairs (df : List Row) : List (String × ℚ) :=
  df.filterMap (fun r => r.Order_Month.map (fun k => (k, r.Sales)))

/-- monthly_trend: group by Order_Month, sum Sales, sort ascending by the
key (groupby already sorts keys; the explicit sort_values re-sorts). -/
def monthly_trend (df : List Row) : List (String × ℚ) :=
  sortOrd leKey (groupSum Prod.fst Prod.snd (monthlyPairs df))

/-- revenue_by_region: group by Region, sum Sales, sort descending by the
summed Sales. -/
def revenue_by_region (df : List Row) : List (String × ℚ) :=
  sortOrd descSnd (groupSum Row.Region Row.Sales df)

/-- top_customers: group by Customer_Name, sum Sales, sort descending by
the summed Sales, keep the first n rows (default 10). -/
def top_customers (df : List Row) (n : Nat := 10) : List (String × ℚ) :=
  (sortOrd descSnd (groupSum Row.Customer_Name Row.Sales df)).take n

/-- Ascending lexicographic comparison on (Year, Month) group keys. -/
def leYM (a b : Int × Nat) : Prop :=
  a.1 < b.1 ∨ (a.1 = b.1 ∧ a.2 ≤ b.2)

instance : DecidableRel leYM :=
  fun a b => inferInstanceAs (Decidable (a.1 < b.1 ∨ (a.1 = b.1 ∧ a.2 ≤ b.2)))

/-- yearly_trend: group by (Year, Month) and sum Sales, sorted ascending
by (Year, Month). groupby drops rows whose Year or Month is null, i.e.
rows with an unparseable date. Each output triple is (year, month, sum). -/
def yearly_trend (df : List Row) : List (Int × Nat × ℚ) :=
  (sortOrd (fun a b => leYM a.1 b.1)
    (groupSum Prod.fst Prod.snd
      (df.filterMap (fun r =>
        match r.Year, r.Month with
        | some y, some m => some ((y, m), r.Sales)
        | _, _ => none)))).map (fun p => (p.1.1, p.1.2, p.2))

/-- The distinct months of the yearly table, ascending: the pivot index. -/
def yoy_pivot_months (t : List (Int × Nat × ℚ)) : List Nat :=
  sortOrd (fun a b => a ≤ b) (dedupFirst (t.map (fun r => r.2.1)))

/-- The distinct years of the yearly table, ascending: the pivot's year
columns, in the order sorted(pivot.columns) sees them. -/
def yoy_pivot_years (t : List (Int × Nat × ℚ)) : List Int :=
  sortOrd (fun a b => a ≤ b) (dedupFirst (t.map (fun r => r.1)))

/-- One cell of the month-by-year pivot: the summed Sales of the rows
with that month and year, or null when no such row exists. -/
def pivotCell (t : List (Int × Nat × ℚ)) (m : Nat) (y : Int) : Option ℚ :=
  let xs := t.filter (fun r => decide (r.2.1 = m) && decide (r.1 = y))
  if xs.isEmpty then none else some ((xs.map (fun r => r.2.2)).sum)

/-- A cell of the growth column: IEEE float division means a zero
prior-year value yields a signed infinity (or NaN for 0/0), and a missing
operand propagates NaN; only a present, nonzero prior gives a number. -/
inductive GrowthVal where
  | val (q : ℚ)
  | posInf
  | negInf
  | nan
deriving DecidableEq, Repr

/-- The float value of (a - b) / b * 100 for two pivot cells: the latest
year's cell a and the prior year's cell b. -/
def growthOf (a b : Option ℚ) : GrowthVal :=
  match a, b with
  | some x, some y =>
      if y = 0 then
        if 0 < x then GrowthVal.posInf
        else if x < 0 then GrowthVal.negInf
        else GrowthVal.nan
      else GrowthVal.val ((x - y) / y * 100)
  | _, _ => GrowthVal.nan

/-- The YoY_Growth_% column of yoy_pivot, one cell per pivot month: with
at least two years it compares the last two years of sorted(columns);
otherwise the whole column is assigned None, i.e. every cell is null. -/
def yoy_growth (t : List (Int × Nat × ℚ)) : List (Nat × GrowthVal) :=
  let years := yoy_pivot_years t
  if 2 ≤ years.length then
    (yoy_pivot_months t).map (fun m =>
      (m, growthOf (pivotCell t m (years.getD (years.length - 1) 0))
                   (pivotCell t m (years.getD (years.length - 2) 0))))
  else
    (yoy_pivot_months t).map (fun m => (m, GrowthVal.nan))

/-- The column labels of the yoy_pivot result: one label per year plus
the growth column, which both branches of yoy_pivot create. -/
def yoy_pivot_columns (t : List (Int × Nat × ℚ)) : List String :=
  (yoy_pivot_years t).map (fun y => toString y) ++ [("YoY_Growth_%")]

/-- plot_yoy_growth returns without plotting exactly when the pivot has
no YoY_Growth_% column. -/
def plot_yoy_growth_skips (t : List (Int × Nat × ℚ)) : Bool :=
  !(decide (("YoY_Growth_%") ∈ yoy_pivot_columns t))

/-- generate_insights emits its Year-over-Year section exactly when the
pivot has a YoY_Growth_% column. -/
def generate_insights_has_yoy (t : List (Int × Nat × ℚ)) : Bool :=
  decide (("YoY_Growth_%") ∈ yoy_pivot_columns t)

/-- A parsed CSV table as pd.read_csv returns it: a header row of column
labels and the data rows. -/
structure CsvTable where
  header : List String
  rows : List (List String)
deriving DecidableEq, Repr

/-- Whitespace-trim a list of characters at both ends. -/
def trimChars (l : List Char) : List Char :=
  ((l.dropWhile Char.isWhitespace).reverse.dropWhile Char.isWhitespace).reverse

/-- col.strip(): trim surrounding whitespace from a column label. -/
def stripLabel (s : String) : String := String.mk (trimChars s.data)

/-- Trim every column label of a table, as the loader does. -/
def stripHeader (t : CsvTable) : CsvTable :=
  { t with header := t.header.map stripLabel }

/-- The ordered encoding list the loader tries. -/
def encodingsList : List String := [("utf-8"), ("latin1"), ("cp1252")]

/-- Try each encoding in order: a successful read returns the parsed
table with trimmed column labels; a UnicodeDecodeError (the only failure
the loop catches, modelled as none) falls through to the next encoding. -/
def tryEncodings (read : String → Option CsvTable) :
    List String → Option CsvTable
  | [] => none
  | e :: es =>
    match read e with
    | some t => some (stripHeader t)
    | none => tryEncodings read es

/-- load_data: the read argument gives the outcome of pd.read_csv at a
path under a given encoding (none = UnicodeDecodeError). When every
encoding fails, the loader raises its data-access ValueError. -/
def load_data (read : String → String → Option CsvTable) (path : String) :
    Except String CsvTable :=
  match tryEncodings (fun e => read e path) encodingsList with
  | some t => Except.ok t
  | none => Except.error ("Unable to read the CSV. Try re-saving as UTF-8.")

/-- One pandas cell of a dynamically typed DataFrame column. -/
inductive Cell where
  | str (s : String)
  | num (q : ℚ)
  | date (d : Date)
  | null
deriving DecidableEq, Repr

/-- A dynamically typed frame: rows of positional cells. Columns 0..4 are
Order_Date, Sales, Region, Customer_ID, Customer_Name; cleaning appends
Year, Month, Order_Month as columns 5..7. -/
abbrev CellTable : Type := List (List Cell)

/-- The frame encoding of a raw CSV row. -/
def encodeRawRow (r : RawRow) : List Cell :=
  [Cell.str r.Order_Date, Cell.str r.Sales, Cell.str r.Region,
   Cell.str r.Customer_ID, Cell.str r.Customer_Name]

/-- The frame encoding of a raw CSV table. -/
def encodeRawTable (df : List RawRow) : CellTable := df.map encodeRawRow

/-- The frame encoding of a cleaned row, derived columns included. -/
def encodeRow (r : Row) : List Cell :=
  [match r.Order_Date with | some d => Cell.date d | none => Cell.null,
   Cell.num r.Sales, Cell.str r.Region, Cell.str r.Customer_ID,
   Cell.str r.Customer_Name,
   match r.Year with | some y => Cell.num ((y : ℚ)) | none => Cell.null,
   match r.Month with | some m => Cell.num ((m : ℚ)) | none => Cell.null,
   match r.Order_Month with | some s => Cell.str s | none => Cell.null]

/-- In-place effect of the statement assigning pd.to_numeric of the Sales
column back to the frame, on one row. -/
def setSalesNumeric (psales : String → Option ℚ) (row : List Cell) :
    List Cell :=
  row.set 1 (match row.get? 1 with
    | some (Cell.str s) =>
        match psales s with
        | some q => Cell.num q
        | none => Cell.null
    | some (Cell.num q) => Cell.num q
    | _ => Cell.null)

/-- Whether dropna(subset=["Sales"]) removes the row. -/
def salesIsNull (row : List Cell) : Bool :=
  decide (row.get? 1 = some Cell.null)

/-- In-place effect of the pd.to_datetime assignment on one row. -/
def setDateParsed (pdate : String → Option Date) (row : List Cell) :
    List Cell :=
  row.set 0 (match row.get? 0 with
    | some (Cell.str s) =>
        match pdate s with
        | some d => Cell.date d
        | none => Cell.null
    | some (Cell.date d) => Cell.date d
    | _ => Cell.null)

/-- Appending the derived Year column to one row: dt.year, null on NaT. -/
def addYearCell (row : List Cell) : List Cell :=
  row ++ [match row.get? 0 with
    | some (Cell.date d) => Cell.num ((d.year : ℚ))
    | _ => Cell.null]

/-- Appending the derived Month column to one row. -/
def addMonthCell (row : List Cell) : List Cell :=
  row ++ [match row.get? 0 with
    | some (Cell.date d) => Cell.num ((d.month : ℚ))
    | _ => Cell.null]

/-- Appending the Order_Month column to one row: astype(str) renders the
period, so a NaT date yields the literal string "NaT", never null. -/
def addOrderMonthCell (row : List Cell) : List Cell :=
  row ++ [match row.get? 0 with
    | some (Cell.date d) => Cell.str (fmtYM d)
    | _ => Cell.str ("NaT")]

/-- The clean_data body as explicit state passing over a heap of frames:
the argument is a reference into the heap, df.copy() allocates a fresh
frame, the four column assignments write in place through the local
reference, and dropna / drop_duplicates allocate new frames. The result
is the final heap together with the frame the function returns. -/
def clean_data_prog (psales : String → Option ℚ) (pdate : String → Option Date)
    (h : List CellTable) (df : Nat) : List CellTable × CellTable :=
  let h1 := h ++ [h.getD df []]
  let r1 := h.length
  let h2 := h1.set r1 ((h1.getD r1 []).map (setSalesNumeric psales))
  let h3 := h2 ++ [(h2.getD r1 []).filter (fun row => !(salesIsNull row))]
  let r2 := h2.length
  let h4 := h3.set r2 ((h3.getD r2 []).map (setDateParsed pdate))
  let h5 := h4.set r2 ((h4.getD r2 []).map addYearCell)
  let h6 := h5.set r2 ((h5.getD r2 []).map addMonthCell)
  let h7 := h6.set r2 ((h6.getD r2 []).map addOrderMonthCell)
  let h8 := h7 ++ [dedupFirst (h7.getD r2 [])]
  (h8, h8.getD h7.length [])

theorem dedupFirst_map_inj {α β : Type} [DecidableEq α] [DecidableEq β]
    {f : α → β} (hinj : ∀ a b, f a = f b → a = b) :
    ∀ (l : List α), dedupFirst (l.map f) = (dedupFirst l).map f := by
  intro l
  induction l with
  | nil => rfl
  | cons a l ih =>
    simp only [List.map_cons, dedupFirst, ih, List.filter_map]
    congr 1
    refine congrArg _ ?_
    refine List.filter_congr ?_
    intro b _
    by_cases hba : b = a
    · simp [hba]
    · have : ¬ f b = f a := fun he => hba (hinj b a he)
      simp [Function.comp, hba, this]

theorem encodeRow_inj : ∀ r1 r2 : Row, encodeRow r1 = encodeRow r2 → r1 = r2 := by
  intro r1 r2 h
  obtain ⟨od1, s1, rg1, ci1, cn1, y1, m1, om1⟩ := r1
  obtain ⟨od2, s2, rg2, ci2, cn2, y2, m2, om2⟩ := r2
  simp only [encodeRow, List.cons.injEq, and_true] at h
  obtain ⟨h1, h2, h3, h4, h5, h6, h7, h8⟩ := h
  simp only [Row.mk.injEq]
  refine ⟨?_, Cell.num.inj h2, Cell.str.inj h3, Cell.str.inj h4,
    Cell.str.inj h5, ?_, ?_, ?_⟩
  · cases od1 <;> cases od2 <;> simp_all
  · cases y1 <;> cases y2 <;> simp_all
  · cases m1 <;> cases m2 <;> simp_all
  · cases om1 <;> cases om2 <;> simp_all

theorem cell_ops_eq (psales : String → Option ℚ) (pdate : String → Option Date) :
    ∀ (df : List RawRow),
    ((((((encodeRawTable df).map (setSalesNumeric psales)).filter
        (fun row => !(salesIsNull row))).map (setDateParsed pdate)).map
        addYearCell).map addMonthCell).map addOrderMonthCell
      = (df.filterMap
          (fun r => (psales r.Sales).map (deriveRow pdate r))).map encodeRow := by
  intro df
  induction df with
  | nil => rfl
  | cons r l ih =>
    simp only [encodeRawTable, List.map_cons] at ih ⊢
    cases hs : psales r.Sales with
    | none =>
      simp only [List.filter_cons, List.filterMap_cons, hs, Option.map_none]
      rw [if_neg (by simp [setSalesNumeric, encodeRawRow, salesIsNull, hs])]
      exact ih
    | some s =>
      simp only [List.filter_cons, List.filterMap_cons, hs, Option.map_some]
      rw [if_pos (by simp [setSalesNumeric, encodeRawRow, salesIsNull, hs])]
      simp only [List.map_cons]
      rw [ih]
      cases hd : pdate r.Order_Date with
      | none =>
        simp [setSalesNumeric, setDateParsed, addYearCell, addMonthCell,
          addOrderMonthCell, encodeRawRow, encodeRow, deriveRow, hs, hd]
      | some d =>
        simp [setSalesNumeric, setDateParsed, addYearCell, addMonthCell,
          addOrderMonthCell, encodeRawRow, encodeRow, deriveRow, hs, hd]

theorem clean_data_prog_unfold (psales : String → Option ℚ)
    (pdate : String → Option Date) (h : List CellTable) (i : Nat) :
    clean_data_prog psales pdate h i
      = ((((((((h ++ [h.getD i []]).set h.length
              ((h.getD i []).map (setSalesNumeric psales)))
            ++ [((h.getD i []).map (setSalesNumeric psales)).filter
                (fun row => !(salesIsNull row))]).set
              (((h ++ [h.getD i []]).set h.length
                ((h.getD i []).map (setSalesNumeric psales))).length)
              ((((h.getD i []).map (setSalesNumeric psales)).filter
                (fun row => !(salesIsNull row))).map (setDateParsed pdate))).set
              (((h ++ [h.getD i []]).set h.length
                ((h.getD i []).map (setSalesNumeric psales))).length)
              (((((h.getD i []).map (setSalesNumeric psales)).filter
                (fun row => !(salesIsNull row))).map
                (setDateParsed pdate)).map addYearCell)).set
              (((h ++ [h.getD i []]).set h.length
                ((h.getD i []).map (setSalesNumeric psales))).length)
              ((((((h.getD i []).map (setSalesNumeric psales)).filter
                (fun row => !(salesIsNull row))).map
                (setDateParsed pdate)).map addYearCell).map addMonthCell)).set
              (((h ++ [h.getD i []]).set h.length
                ((h.getD i []).map (setSalesNumeric psales))).length)
              (((((((h.getD i []).map (setSalesNumeric psales)).filter
                (fun row => !(salesIsNull row))).map
                (setDateParsed pdate)).map addYearCell).map
                addMonthCell).map addOrderMonthCell))
            ++ [dedupFirst (((((((h.getD i []).map (setSalesNumeric psales)).filter
                (fun row => !(salesIsNull row))).map
                (setDateParsed pdate)).map addYearCell).map
                addMonthCell).map addOrderMonthCell)],
          dedupFirst (((((((h.getD i []).map (setSalesNumeric psales)).filter
            (fun row => !(salesIsNull row))).map
            (setDateParsed pdate)).map addYearCell).map
            addMonthCell).map addOrderMonthCell)) := by
  have g1 : (h ++ [h.getD i []]).getD h.length [] = h.getD i [] := by
    rw [List.getD_eq_get?, List.get?_concat_length]
    rfl
  simp only [clean_data_prog, g1]
  have g2 : ((h ++ [h.getD i []]).set h.length
      ((h.getD i []).map (setSalesNumeric psales))).getD h.length []
      = (h.getD i []).map (setSalesNumeric psales) := by
    rw [List.getD_eq_get?, List.get?_set_eq_of_lt _ (by simp [List.length_append])]
    rfl
  simp only [g2]
  have g3 : ∀ (L : List CellTable) (x : CellTable),
      (L ++ [x]).getD L.length [] = x := by
    intro L x
    rw [List.getD_eq_get?, List.get?_concat_length]
    rfl
  simp only [g3]
  have g4 : ∀ (L : List CellTable) (j : Nat) (x : CellTable), j < L.length →
      (L.set j x).getD j [] = x := by
    intro L j x hj
    rw [List.getD_eq_get?, List.get?_set_eq_of_lt _ hj]
    rfl
  rw [g4 _ _ _ (by simp [List.length_append, List.length_set])]
  rw [g4 _ _ _ (by simp [List.length_append, List.length_set])]
  rw [g4 _ _ _ (by simp [List.length_append, List.length_set])]
  rw [g4 _ _ _ (by simp [List.length_append, List.length_set])]

/-- C10: clean_data does not mutate its argument. In the explicit-heap
rendering of the body, the caller's frame (heap slot i) is unchanged by
the call - all in-place column writes go through the reference allocated
by df.copy() - and the returned frame is exactly the encoded cleaned
table, a fresh value the caller may use alongside the untouched raw one. -/
theorem clean_data_prog_frame (psales : String → Option ℚ)
    (pdate : String → Option Date) (h : List CellTable) (i : Nat)
    (df : List RawRow) (hi : h.get? i = some (encodeRawTable df)) :
    ((clean_data_prog psales pdate h i).1).get? i = some (encodeRawTable df)
    ∧ (clean_data_prog psales pdate h i).2
      = (clean_data psales pdate df).map encodeRow := by
  have hlen : i < h.length := by
    by_contra hc
    rw [List.get?_eq_none.mpr (Nat.le_of_not_lt hc)] at hi
    cases hi
  have hgetD : h.getD i [] = encodeRawTable df := by
    rw [List.getD_eq_get?, hi]
    rfl
  rw [clean_data_prog_unfold]
  constructor
  · rw [List.get?_append
      (by simp [List.length_set, List.length_append]; omega)]
    rw [List.get?_set_ne _ _
      (by simp [List.length_set, List.length_append]; omega)]
    rw [List.get?_set_ne _ _
      (by simp [List.length_set, List.length_append]; omega)]
    rw [List.get?_set_ne _ _
      (by simp [List.length_set, List.length_append]; omega)]
    rw [List.get?_set_ne _ _
      (by simp [List.length_set, List.length_append]; omega)]
    rw [List.get?_append
      (by simp [List.length_set, List.length_append]; omega)]
    rw [List.get?_set_ne _ _ (by omega)]
    rw [List.get?_append hlen]
    exact hi
  · show dedupFirst _ = _
    rw [hgetD, cell_ops_eq, dedupFirst_map_inj encodeRow_inj]
    rfl

/-- A toy row-level behaviour of pd.to_numeric for the sample inputs:
the handful of numeric literals the samples use parse, "bad" and any
other string fail. -/
def psEx (s : String) : Option ℚ :=
  if s = ("100") then some 100
  else if s = ("300") then some 300
  else if s = ("50") then some 50
  else if s = ("0") then some 0
  else none

/-- A toy row-level behaviour of pd.to_datetime for the sample inputs:
the sample dates parse, anything else (such as "garbage") is NaT. -/
def pdEx (s : String) : Option Date :=
  if s = ("2023-01-05") then some ⟨2023, 1, 5⟩
  else if s = ("2023-01-06") then some ⟨2023, 1, 6⟩
  else if s = ("2024-01-05") then some ⟨2024, 1, 5⟩
  else if s = ("2024-02-01") then some ⟨2024, 2, 1⟩
  else none

/-- The spec's example input: a valid 2023 row, a row whose Sales fails
to parse, and a valid 2024 row for the same customer. -/
def rawEx : List RawRow :=
  [⟨("2023-01-05"), ("100"), ("East"), ("C1"), ("Alice")⟩,
   ⟨("2023-01-06"), ("bad"), ("East"), ("C2"), ("Bob")⟩,
   ⟨("2024-01-05"), ("300"), ("East"), ("C1"), ("Alice")⟩]

/-- The cleaned form of the example input. -/
def cEx : List Row := clean_data psEx pdEx rawEx

/-- An input whose second row has an unparseable date. -/
def rawNat : List RawRow :=
  [⟨("2023-01-05"), ("100"), ("East"), ("C1"), ("Alice")⟩,
   ⟨("garbage"), ("50"), ("West"), ("C2"), ("Bob")⟩]

/-- An input with two regions of equal total revenue. -/
def rawTie : List RawRow :=
  [⟨("2023-01-05"), ("50"), ("A"), ("C1"), ("Alice")⟩,
   ⟨("2023-01-06"), ("50"), ("B"), ("C2"), ("Bob")⟩]

/-- An input whose prior-year January revenue is zero. -/
def rawZero : List RawRow :=
  [⟨("2023-01-05"), ("0"), ("East"), ("C1"), ("Alice")⟩,
   ⟨("2024-01-05"), ("50"), ("East"), ("C2"), ("Bob")⟩]

/-- A single-year input. -/
def rawOneYear : List RawRow :=
  [⟨("2023-01-05"), ("100"), ("East"), ("C1"), ("Alice")⟩]

/-- C10 witness: with a one-slot heap holding the encoded example table,
the call leaves slot 0 holding that very table and returns the encoded
cleaned table. -/
theorem clean_data_prog_frame_witness :
    ((clean_data_prog psEx pdEx [encodeRawTable rawEx] 0).1).get? 0
      = some (encodeRawTable rawEx)
    ∧ (clean_data_prog psEx pdEx [encodeRawTable rawEx] 0).2
      = (clean_data psEx pdEx rawEx).map encodeRow := by
  exact clean_data_prog_frame psEx pdEx [encodeRawTable rawEx] 0 rawEx rfl

theorem mem_dedupFirst {α : Type} [DecidableEq α] {a : α} :
    ∀ {l : List α}, a ∈ dedupFirst l ↔ a ∈ l := by
  intro l
  induction l with
  | nil => simp [dedupFirst]
  | cons b l ih =>
    by_cases hab : a = b
    · subst hab
      simp [dedupFirst]
    · simp [dedupFirst, List.mem_filter, hab, ih]

theorem nodup_dedupFirst {α : Type} [DecidableEq α] :
    ∀ (l : List α), (dedupFirst l).Nodup := by
  intro l
  induction l with
  | nil => exact List.nodup_nil
  | cons b l ih =>
    refine List.nodup_cons.mpr ⟨?_, List.Nodup.filter _ ih⟩
    intro hb
    have := (List.mem_filter.mp hb).2
    simp at this

theorem perm_insertOrd {α : Type} (r : α → α → Prop) [DecidableRel r] (a : α) :
    ∀ (l : List α), (insertOrd r a l).Perm (a :: l) := by
  intro l
  induction l with
  | nil => exact List.Perm.refl _
  | cons b l ih =>
    by_cases h : r a b
    · simp [insertOrd, h]
    · simp only [insertOrd, h, if_false]
      exact (List.Perm.cons b ih).trans (List.Perm.swap a b l)

theorem perm_sortOrd {α : Type} (r : α → α → Prop) [DecidableRel r] :
    ∀ (l : List α), (sortOrd r l).Perm l := by
  intro l
  induction l with
  | nil => exact List.Perm.refl _
  | cons a l ih =>
    exact (perm_insertOrd r a (sortOrd r l)).trans (List.Perm.cons a ih)

theorem mem_sortOrd {α : Type} (r : α → α → Prop) [DecidableRel r]
    {a : α} {l : List α} : a ∈ sortOrd r l ↔ a ∈ l :=
  (perm_sortOrd r l).mem_iff

theorem pairwise_insertOrd {α : Type} (r : α → α → Prop) [DecidableRel r]
    (total : ∀ a b, r a b ∨ r b a) (tr : ∀ a b c, r a b → r b c → r a c)
    (a : α) : ∀ (l : List α), l.Pairwise r → (insertOrd r a l).Pairwise r := by
  intro l
  induction l with
  | nil => intro _; simp [insertOrd]
  | cons b l ih =>
    intro hp
    rcases List.pairwise_cons.mp hp with ⟨hb, hl⟩
    by_cases h : r a b
    · simp only [insertOrd, h, if_true]
      refine List.pairwise_cons.mpr ⟨?_, hp⟩
      intro c hc
      rcases List.mem_cons.mp hc with hc | hc
      · subst hc
        exact h
      · exact tr a b c h (hb c hc)
    · simp only [insertOrd, h, if_false]
      refine List.pairwise_cons.mpr ⟨?_, ih hl⟩
      intro c hc
      rcases List.mem_cons.mp (((perm_insertOrd r a l).mem_iff).mp hc) with hc | hc
      · rw [hc]
        rcases total a b with h1 | h1
        · exact absurd h1 h
        · exact h1
      · exact hb c hc

theorem pairwise_sortOrd {α : Type} (r : α → α → Prop) [DecidableRel r]
    (total : ∀ a b, r a b ∨ r b a) (tr : ∀ a b c, r a b → r b c → r a c) :
    ∀ (l : List α), (sortOrd r l).Pairwise r := by
  intro l
  induction l with
  | nil => simp [sortOrd]
  | cons a l ih => exact pairwise_insertOrd r total tr a _ ih

theorem strLeB_total : ∀ (a b : List Char),
    strLeB a b = true ∨ strLeB b a = true := by
  intro a
  induction a with
  | nil => intro b; left; cases b <;> rfl
  | cons x xs ih =>
    intro b
    cases b with
    | nil => right; rfl
    | cons y ys =>
      rcases Nat.lt_trichotomy x.toNat y.toNat with h | h | h
      · left
        simp [strLeB, h]
      · rcases ih ys with h1 | h1
        · left
          simp [strLeB, h, h1]
        · right
          simp [strLeB, h.symm, h1]
      · right
        simp [strLeB, h]

theorem strLeB_trans : ∀ (a b c : List Char), strLeB a b = true →
    strLeB b c = true → strLeB a c = true := by
  intro a
  induction a with
  | nil => intro b c _ _; cases c <;> rfl
  | cons x xs ih =>
    intro b c hab hbc
    cases b with
    | nil => simp [strLeB] at hab
    | cons y ys =>
      cases c with
      | nil => simp [strLeB] at hbc
      | cons z zs =>
        simp only [strLeB] at hab hbc ⊢
        by_cases h3 : y.toNat < x.toNat
        · have h1 : ¬ x.toNat < y.toNat := by omega
          simp [h1, h3] at hab
        · by_cases h4 : z.toNat < y.toNat
          · have h2 : ¬ y.toNat < z.toNat := by omega
            simp [h2, h4] at hbc
          · by_cases h1 : x.toNat < y.toNat
            · have h5 : x.toNat < z.toNat := by omega
              simp [h5]
            · by_cases h2 : y.toNat < z.toNat
              · have h5 : x.toNat < z.toNat := by omega
                simp [h5]
              · have h5 : ¬ x.toNat < z.toNat := by omega
                have h6 : ¬ z.toNat < x.toNat := by omega
                simp only [h1, h3, if_false, if_true] at hab
                simp only [h2, h4, if_false, if_true] at hbc
                simp only [h5, h6, if_false, if_true]
                exact ih ys zs hab hbc

theorem leKey_total : ∀ (a b : String × ℚ), leKey a b ∨ leKey b a := by
  intro a b
  exact strLeB_total a.1.data b.1.data

theorem leKey_trans : ∀ (a b c : String × ℚ),
    leKey a b → leKey b c → leKey a c := by
  intro a b c h1 h2
  exact strLeB_trans a.1.data b.1.data c.1.data h1 h2

theorem descSnd_total {κ : Type} : ∀ (a b : κ × ℚ), descSnd a b ∨ descSnd b a := by
  intro a b
  exact (le_total b.2 a.2).imp id id

theorem descSnd_trans {κ : Type} : ∀ (a b c : κ × ℚ),
    descSnd a b → descSnd b c → descSnd a c := by
  intro a b c h1 h2
  exact le_trans h2 h1

theorem sum_map_filter_split {α : Type} (p : α → Bool) (val : α → ℚ) :
    ∀ (l : List α),
    ((l.filter p).map val).sum + ((l.filter (fun a => !(p a))).map val).sum
      = (l.map val).sum := by
  intro l
  induction l with
  | nil => simp
  | cons a l ih =>
    by_cases h : p a
    · have e1 : (a :: l).filter p = a :: l.filter p := by
        simp [List.filter_cons, h]
      have e2 : (a :: l).filter (fun x => !(p x)) = l.filter (fun x => !(p x)) := by
        simp [List.filter_cons, h]
      rw [e1, e2, List.map_cons, List.sum_cons, add_assoc, ih,
        List.map_cons, List.sum_cons]
    · have e1 : (a :: l).filter p = l.filter p := by
        simp [List.filter_cons, h]
      have e2 : (a :: l).filter (fun x => !(p x))
          = a :: l.filter (fun x => !(p x)) := by
        simp [List.filter_cons, h]
      rw [e1, e2, List.map_cons, List.sum_cons, add_left_comm, ih,
        List.map_cons, List.sum_cons]

theorem sum_over_keys {α κ : Type} [DecidableEq κ] (key : α → κ) (val : α → ℚ) :
    ∀ (ks : List κ) (l : List α), ks.Nodup → (∀ a ∈ l, key a ∈ ks) →
    (ks.map (fun k =>
      ((l.filter (fun a => decide (key a = k))).map val).sum)).sum
      = (l.map val).sum := by
  intro ks
  induction ks with
  | nil =>
    intro l _ hcov
    have : l = [] := by
      cases l with
      | nil => rfl
      | cons a l => exact absurd (hcov a (List.mem_cons_self a l)) (by simp)
    subst this
    simp
  | cons k ks ih =>
    intro l hnd hcov
    have hknotin : k ∉ ks := (List.nodup_cons.mp hnd).1
    have hfilter : ∀ k' ∈ ks,
        l.filter (fun a => decide (key a = k'))
          = (l.filter (fun a => !(decide (key a = k)))).filter
              (fun a => decide (key a = k')) := by
      intro k' hk'
      rw [List.filter_filter]
      refine (List.filter_congr ?_).symm
      intro a _
      by_cases hak : key a = k'
      · have hkk : k' ≠ k := fun h => hknotin (h ▸ hk')
        simp [hak, hkk]
      · simp [hak]
    have hmapc : ks.map (fun k' =>
          ((l.filter (fun a => decide (key a = k'))).map val).sum)
        = ks.map (fun k' =>
          (((l.filter (fun a => !(decide (key a = k)))).filter
            (fun a => decide (key a = k'))).map val).sum) := by
      refine List.map_congr_left ?_
      intro k' hk'
      rw [hfilter k' hk']
    have hcov2 : ∀ a ∈ l.filter (fun a => !(decide (key a = k))), key a ∈ ks := by
      intro a ha
      rcases List.mem_filter.mp ha with ⟨hal, hak⟩
      have : key a ≠ k := by
        intro hk
        simp [hk] at hak
      rcases List.mem_cons.mp (hcov a hal) with h | h
      · exact absurd h this
      · exact h
    simp only [List.map_cons, List.sum_cons, hmapc,
      ih _ (List.nodup_cons.mp hnd).2 hcov2]
    exact sum_map_filter_split (fun a => decide (key a = k)) val l

theorem sum_groupSum {α κ : Type} [DecidableEq κ] (key : α → κ) (val : α → ℚ)
    (l : List α) :
    ((groupSum key val l).map Prod.snd).sum = (l.map val).sum := by
  have h := sum_over_keys key val (dedupFirst (l.map key)) l
    (nodup_dedupFirst _)
    (fun a ha => mem_dedupFirst.mpr (List.mem_map.mpr ⟨a, ha, rfl⟩))
  rw [← h, groupSum, List.map_map]
  rfl

theorem groupSum_keys {α κ : Type} [DecidableEq κ] (key : α → κ) (val : α → ℚ)
    (l : List α) :
    (groupSum key val l).map Prod.fst = dedupFirst (l.map key) := by
  rw [groupSum, List.map_map]
  exact List.map_id _

theorem mem_groupSum {α κ : Type} [DecidableEq κ] {key : α → κ} {val : α → ℚ}
    {l : List α} {p : κ × ℚ} (h : p ∈ groupSum key val l) :
    p.1 ∈ l.map key ∧
    p.2 = ((l.filter (fun a => decide (key a = p.1))).map val).sum := by
  rcases List.mem_map.mp h with ⟨k', hk', hkv⟩
  subst hkv
  exact ⟨mem_dedupFirst.mp hk', rfl⟩

theorem groupSum_mem_of_key {α κ : Type} [DecidableEq κ] {key : α → κ}
    {val : α → ℚ} {l : List α} {k : κ} (h : k ∈ l.map key) :
    (k, ((l.filter (fun a => decide (key a = k))).map val).sum)
      ∈ groupSum key val l :=
  List.mem_map.mpr ⟨k, mem_dedupFirst.mpr h, rfl⟩

theorem mem_clean_data {psales : String → Option ℚ}
    {pdate : String → Option Date} {df : List RawRow} {r' : Row} :
    r' ∈ clean_data psales pdate df
      ↔ ∃ r ∈ df, ∃ s, psales r.Sales = some s ∧ r' = deriveRow pdate r s := by
  rw [clean_data, mem_dedupFirst, List.mem_filterMap]
  constructor
  · rintro ⟨r, hr, hsome⟩
    rcases Option.map_eq_some'.mp hsome with ⟨s, hs, hd⟩
    exact ⟨r, hr, s, hs, hd.symm⟩
  · rintro ⟨r, hr, s, hs, hd⟩
    exact ⟨r, hr, by rw [hs, Option.map_some', hd]⟩

theorem clean_data_row_shape {psales : String → Option ℚ}
    {pdate : String → Option Date} {df : List RawRow} {r' : Row}
    (h : r' ∈ clean_data psales pdate df) :
    (∃ d : Date, r'.Order_Date = some d ∧ r'.Year = some d.year
       ∧ r'.Month = some d.month ∧ r'.Order_Month = some (fmtYM d))
    ∨ (r'.Order_Date = none ∧ r'.Year = none ∧ r'.Month = none
       ∧ r'.Order_Month = some ("NaT")) := by
  rcases mem_clean_data.mp h with ⟨r, _, s, _, hd⟩
  subst hd
  cases hdt : pdate r.Order_Date with
  | none => right; simp [deriveRow, hdt]
  | some d => left; exact ⟨d, by simp [deriveRow, hdt]⟩

theorem clean_data_om_isSome {psales : String → Option ℚ}
    {pdate : String → Option Date} {df : List RawRow} {r' : Row}
    (h : r' ∈ clean_data psales pdate df) : (Row.Order_Month r').isSome := by
  rcases clean_data_row_shape h with ⟨d, _, _, _, hom⟩ | ⟨_, _, _, hom⟩ <;>
    simp [hom]

theorem monthlyPairs_map_snd :
    ∀ (df : List Row), (∀ r ∈ df, (Row.Order_Month r).isSome) →
    (monthlyPairs df).map Prod.snd = df.map Row.Sales := by
  intro df
  induction df with
  | nil => intro _; rfl
  | cons r l ih =>
    intro h
    rcases Option.isSome_iff_exists.mp (h r (List.mem_cons_self r l)) with ⟨k, hk⟩
    have hl := ih (fun x hx => h x (List.mem_cons_of_mem r hx))
    simp only [monthlyPairs, List.filterMap_cons, hk, Option.map_some',
      List.map_cons]
    rw [← hl]
    rfl

/-- C6: top_customers df n is the per-customer sales totals, sorted
descending by total, truncated to n rows: it has at most n rows, no more
rows than there are distinct customer names, and every row carries a name
present in the data together with that name's total sales. -/
theorem top_customers_spec (df : List Row) (n : Nat) :
    (top_customers df n).length ≤ n
    ∧ (top_customers df n).length
        ≤ (dedupFirst (df.map Row.Customer_Name)).length
    ∧ (top_customers df n).Pairwise descSnd
    ∧ ∀ p ∈ top_customers df n,
        p.1 ∈ df.map Row.Customer_Name
        ∧ p.2 = ((df.filter
            (fun r => decide (r.Customer_Name = p.1))).map Row.Sales).sum := by
  have hlen : (sortOrd descSnd
      (groupSum Row.Customer_Name Row.Sales df)).length
      = (dedupFirst (df.map Row.Customer_Name)).length := by
    rw [(perm_sortOrd descSnd _).length_eq, groupSum, List.length_map]
  refine ⟨?_, ?_, ?_, ?_⟩
  · rw [top_customers, List.length_take]
    exact min_le_left _ _
  · rw [top_customers, List.length_take, ← hlen]
    exact min_le_right _ _
  · exact List.Pairwise.sublist (List.take_sublist _ _)
      (pairwise_sortOrd descSnd descSnd_total descSnd_trans _)
  · intro p hp
    have hp' : p ∈ groupSum Row.Customer_Name Row.Sales df :=
      (mem_sortOrd descSnd).mp (List.take_subset _ _ hp)
    exact mem_groupSum hp'

/-- C6 witness: on the example data with n = 2 the output has at most two
rows, and the row for the sole customer carries that customer's total. -/
theorem top_customers_spec_witness :
    (top_customers cEx 2).length ≤ 2
    ∧ ("Alice") ∈ cEx.map Row.Customer_Name := by
  have h := top_customers_spec cEx 2
  exact ⟨h.1, (h.2.2.2 (("Alice"), 400) (by decide)).1⟩

/-- C7 (amended): revenue_by_region has one row per distinct region of
the cleaned data, each carrying that region's summed sales, and its
revenue column is sorted descending - weakly, not strictly: two regions
with equal totals yield equal adjacent revenues. The order is the
deterministic result of the sort, so ties break deterministically. -/
theorem revenue_by_region_spec (df : List Row) :
    (revenue_by_region df).Pairwise descSnd
    ∧ ((revenue_by_region df).map Prod.fst).Nodup
    ∧ (∀ k, k ∈ (revenue_by_region df).map Prod.fst ↔ k ∈ df.map Row.Region)
    ∧ ∀ p ∈ revenue_by_region df,
        p.2 = ((df.filter
            (fun r => decide (r.Region = p.1))).map Row.Sales).sum := by
  have hperm := (perm_sortOrd descSnd
    (groupSum Row.Region Row.Sales df)).map Prod.fst
  refine ⟨pairwise_sortOrd descSnd descSnd_total descSnd_trans _, ?_, ?_, ?_⟩
  · rw [revenue_by_region, hperm.nodup_iff, groupSum_keys]
    exact nodup_dedupFirst _
  · intro k
    rw [revenue_by_region, hperm.mem_iff, groupSum_keys, mem_dedupFirst]
  · intro p hp
    have hp' : p ∈ groupSum Row.Region Row.Sales df :=
      (mem_sortOrd descSnd).mp hp
    exact (mem_groupSum hp').2

/-- C7 witness: on the equal-revenue two-region sample, the region keys
are distinct and region A's row carries its summed sales. -/
theorem revenue_by_region_spec_witness :
    ((revenue_by_region (clean_data psEx pdEx rawTie)).map Prod.fst).Nodup
    ∧ (50:ℚ) = (((clean_data psEx pdEx rawTie).filter
        (fun r => decide (r.Region = ("A")))).map Row.Sales).sum := by
  have h := revenue_by_region_spec (clean_data psEx pdEx rawTie)
  exact ⟨h.2.1, h.2.2.2 (("A"), 50) (by decide)⟩

/-- C7 counterexample: two regions with total 50 each give the revenue
column [50, 50], which is not strictly descending. -/
theorem revenue_by_region_ties_not_strict :
    (revenue_by_region (clean_data psEx pdEx rawTie)).map Prod.snd
      = [50, 50]
    ∧ ¬ ((revenue_by_region (clean_data psEx pdEx rawTie)).Pairwise
        (fun a b => b.2 < a.2)) := by decide

theorem tryEncodings_eq_none {read : String → Option CsvTable} :
    ∀ es : List String, tryEncodings read es = none ↔ ∀ e ∈ es, read e = none := by
  intro es
  induction es with
  | nil => simp [tryEncodings]
  | cons e es ih =>
    cases hr : read e with
    | some t => simp [tryEncodings, hr]
    | none => simp [tryEncodings, hr, ih]

theorem tryEncodings_first {read : String → Option CsvTable} :
    ∀ (pre : List String) (e : String) (post : List String) (t : CsvTable),
    (∀ x ∈ pre, read x = none) → read e = some t →
    tryEncodings read (pre ++ e :: post) = some (stripHeader t) := by
  intro pre
  induction pre with
  | nil =>
    intro e post t _ he
    simp [tryEncodings, he]
  | cons x pre ih =>
    intro e post t hpre he
    have hx : read x = none := hpre x (List.mem_cons_self x pre)
    simp only [List.cons_append, tryEncodings, hx]
    exact ih e post t (fun y hy => hpre y (List.mem_cons_of_mem x hy)) he

/-- C8: load_data raises its data-access error exactly when every
encoding in the ordered list fails, and when some encoding is the first
to succeed the result is that parsed table with whitespace-trimmed column
labels. -/
theorem load_data_spec (read : String → String → Option CsvTable)
    (path : String) :
    ((load_data read path
        = Except.error ("Unable to read the CSV. Try re-saving as UTF-8."))
      ↔ ∀ e ∈ encodingsList, read e path = none)
    ∧ ∀ (pre : List String) (e : String) (post : List String) (t : CsvTable),
        encodingsList = pre ++ e :: post →
        (∀ x ∈ pre, read x path = none) → read e path = some t →
        load_data read path = Except.ok (stripHeader t) := by
  constructor
  · cases htry : tryEncodings (fun e => read e path) encodingsList with
    | some t =>
      rw [load_data, htry]
      constructor
      · intro hcontra
        cases hcontra
      · intro hall
        rw [(@tryEncodings_eq_none (fun e => read e path) encodingsList).mpr hall]
          at htry
        cases htry
    | none =>
      rw [load_data, htry]
      exact ⟨fun _ => (@tryEncodings_eq_none (fun e => read e path)
        encodingsList).mp htry, fun _ => rfl⟩
  · intro pre e post t henc hpre he
    rw [load_data, henc, tryEncodings_first pre e post t hpre he]

/-- C8 witness: a reader failing under utf-8 and succeeding under latin1
loads the latin1 table, with the header label trimmed. -/
theorem load_data_spec_witness :
    load_data (fun e _ => if e = ("latin1")
        then some ⟨[(" Sales ")], []⟩ else none) ("data.csv")
      = Except.ok ⟨[("Sales")], []⟩ := by
  have h := (load_data_spec (fun e _ => if e = ("latin1")
      then some ⟨[(" Sales ")], []⟩ else none) ("data.csv")).2
    [("utf-8")] ("latin1") [("cp1252")] ⟨[(" Sales ")], []⟩ rfl
    (by decide) (by decide)
  exact h

/-- An input holding the same raw record twice. -/
def rawDup : List RawRow :=
  [⟨("2023-01-05"), ("100"), ("East"), ("C1"), ("Alice")⟩,
   ⟨("2023-01-05"), ("100"), ("East"), ("C1"), ("Alice")⟩]

/-- C5: for every cleaned table, the sum of the revenue values over all
rows of the monthly_trend output equals the Total_Sales value computed by
compute_kpis, exactly, in exact arithmetic. This holds for every input
precisely because Order_Month is never null (a failed date parse yields
the string "NaT"), so the Order_Month groupby drops no row. -/
theorem monthly_total_eq_kpi_total (psales : String → Option ℚ)
    (pdate : String → Option Date) (raw : List RawRow) :
    ((monthly_trend (clean_data psales pdate raw)).map Prod.snd).sum
      = (compute_kpis (clean_data psales pdate raw)).Total_Sales := by
  have hperm := (perm_sortOrd leKey
    (groupSum Prod.fst Prod.snd (monthlyPairs (clean_data psales pdate raw)))).map
    Prod.snd
  rw [monthly_trend, hperm.sum_eq,
    sum_groupSum Prod.fst Prod.snd (monthlyPairs (clean_data psales pdate raw)),
    monthlyPairs_map_snd _ (fun r hr => clean_data_om_isSome hr)]
  rfl

/-- C3 (amended): clean_data keeps, as a set, exactly the derived forms
of the input rows whose Sales parse (so a row is dropped for a parse
reason only when its Sales fail, and rows with unparseable dates are
kept), the Sales of every kept row is a non-null number by construction,
and an unparseable date yields null Year and null Month - but the derived
year-month key of such a row is the non-null string "NaT", not null. -/
theorem clean_data_parse_policy (psales : String → Option ℚ)
    (pdate : String → Option Date) (df : List RawRow) :
    (∀ r' : Row, r' ∈ clean_data psales pdate df
       ↔ ∃ r ∈ df, ∃ s, psales r.Sales = some s ∧ r' = deriveRow pdate r s)
    ∧ (∀ r' ∈ clean_data psales pdate df, r'.Order_Date = none →
       r'.Year = none ∧ r'.Month = none ∧ r'.Order_Month = some ("NaT")) := by
  refine ⟨fun r' => mem_clean_data, ?_⟩
  intro r' hr' hdate
  rcases clean_data_row_shape hr' with ⟨d, hd, _, _, _⟩ | ⟨_, hy, hm, hom⟩
  · rw [hd] at hdate
    exact absurd hdate (by simp)
  · exact ⟨hy, hm, hom⟩

/-- C3 witness: on the sample input with one unparseable date, the
derived form of the bad-date row is kept, and its Year is null. -/
theorem clean_data_parse_policy_witness :
    (deriveRow pdEx ⟨("garbage"), ("50"), ("West"), ("C2"), ("Bob")⟩ 50)
      ∈ clean_data psEx pdEx rawNat
    ∧ (deriveRow pdEx ⟨("garbage"), ("50"), ("West"), ("C2"), ("Bob")⟩ 50).Year
      = none := by
  have h := clean_data_parse_policy psEx pdEx rawNat
  have hm := (h.1 (deriveRow pdEx ⟨("garbage"), ("50"), ("West"), ("C2"), ("Bob")⟩ 50)).mpr
    ⟨⟨("garbage"), ("50"), ("West"), ("C2"), ("Bob")⟩, by decide, 50, by decide, rfl⟩
  exact ⟨hm, (h.2 _ hm (by decide)).1⟩

/-- C3 counterexample: the claim says an unparseable order date yields
null values for all three derived calendar fields, but the kept bad-date
row has Order_Month equal to the non-null string "NaT" (only Year and
Month are null). -/
theorem clean_data_nat_key_not_null :
    (clean_data psEx pdEx rawNat).map Row.Order_Month
      = [some ("2023-01"), some ("NaT")]
    ∧ (clean_data psEx pdEx rawNat).map Row.Year = [some 2023, none]
    ∧ (clean_data psEx pdEx rawNat).map Row.Month = [some 1, none]
    ∧ some ("NaT") ≠ (none : Option String) := by decide

/-- C9: duplicates are removed after the derived columns are added: the
cleaned output has no two identical rows (across all columns, derived
ones included), and every input row whose Sales parse appears exactly
once in the output in derived form, so a group of input rows sharing one
derived form collapses to exactly one output row. -/
theorem clean_data_dedup_spec (psales : String → Option ℚ)
    (pdate : String → Option Date) (df : List RawRow) :
    (clean_data psales pdate df).Nodup
    ∧ ∀ r ∈ df, ∀ s, psales r.Sales = some s →
        (clean_data psales pdate df).count (deriveRow pdate r s) = 1 := by
  refine ⟨nodup_dedupFirst _, ?_⟩
  intro r hr s hs
  exact List.count_eq_one_of_mem (nodup_dedupFirst _)
    (mem_clean_data.mpr ⟨r, hr, s, hs, rfl⟩)

/-- C1 (amended): with fewer than two distinct years, the pivot still
carries a YoY_Growth_% column - it is assigned None, so every growth cell
is null, but the column is present. Because both the chart guard and the
report guard test column membership, plot_yoy_growth does NOT skip the
chart and generate_insights does NOT omit its YoY section. -/
theorem yoy_single_year_column (t : List (Int × Nat × ℚ))
    (h : (yoy_pivot_years t).length < 2) :
    ("YoY_Growth_%") ∈ yoy_pivot_columns t
    ∧ (∀ p ∈ yoy_growth t, p.2 = GrowthVal.nan)
    ∧ plot_yoy_growth_skips t = false
    ∧ generate_insights_has_yoy t = true := by
  have hcol : ("YoY_Growth_%") ∈ yoy_pivot_columns t := by
    rw [yoy_pivot_columns]
    exact List.mem_append_right _ (List.mem_singleton.mpr rfl)
  have hn : ¬ 2 ≤ (yoy_pivot_years t).length := Nat.not_le.mpr h
  refine ⟨hcol, ?_, ?_, ?_⟩
  · intro p hp
    simp only [yoy_growth, hn, if_false] at hp
    rcases List.mem_map.mp hp with ⟨m, _, hm⟩
    rw [← hm]
  · simp [plot_yoy_growth_skips, hcol]
  · simp [generate_insights_has_yoy, hcol]

/-- C1 witness: the single-year sample pipeline satisfies the hypothesis,
and its pivot carries the growth column. -/
theorem yoy_single_year_column_witness :
    ("YoY_Growth_%")
      ∈ yoy_pivot_columns (yearly_trend (clean_data psEx pdEx rawOneYear)) := by
  exact (yoy_single_year_column (yearly_trend (clean_data psEx pdEx rawOneYear))
    (by decide)).1

/-- C1 counterexample: on a one-year input the claim says the YoY chart
is skipped and the report section omitted, but the growth column is
present (all-null), the chart guard does not skip, and the report guard
does not omit the section. -/
theorem yoy_single_year_not_skipped :
    (yoy_pivot_years (yearly_trend (clean_data psEx pdEx rawOneYear))).length = 1
    ∧ yoy_pivot_columns (yearly_trend (clean_data psEx pdEx rawOneYear))
        = [("2023"), ("YoY_Growth_%")]
    ∧ plot_yoy_growth_skips (yearly_trend (clean_data psEx pdEx rawOneYear))
        = false
    ∧ generate_insights_has_yoy (yearly_trend (clean_data psEx pdEx rawOneYear))
        = true := by decide

/-- C2 (amended): with at least two distinct years, a month whose two
cells are present gets the growth number (latest - prior) / prior * 100
when the prior-year value is nonzero; when the prior-year value is zero
the float division produces a signed infinity (positive when the latest
value is positive), not a null growth cell. -/
theorem yoy_growth_formula (t : List (Int × Nat × ℚ))
    (h2 : 2 ≤ (yoy_pivot_years t).length) (m : Nat) (a b : ℚ)
    (hm : m ∈ yoy_pivot_months t)
    (ha : pivotCell t m
      ((yoy_pivot_years t).getD ((yoy_pivot_years t).length - 1) 0) = some a)
    (hb : pivotCell t m
      ((yoy_pivot_years t).getD ((yoy_pivot_years t).length - 2) 0) = some b) :
    (b ≠ 0 → (m, GrowthVal.val ((a - b) / b * 100)) ∈ yoy_growth t)
    ∧ (b = 0 → 0 < a → (m, GrowthVal.posInf) ∈ yoy_growth t) := by
  constructor
  · intro hb0
    simp only [yoy_growth, h2, if_true]
    refine List.mem_map.mpr ⟨m, hm, ?_⟩
    rw [ha, hb]
    simp [growthOf, hb0]
  · intro hb0 ha0
    simp only [yoy_growth, h2, if_true]
    refine List.mem_map.mpr ⟨m, hm, ?_⟩
    rw [ha, hb]
    simp [growthOf, hb0, ha0]

/-- C2 witness: on the spec's example (January: 100 in 2023, 300 in 2024)
the growth cell is (300 - 100) / 100 * 100, which is 200 percent. -/
theorem yoy_growth_formula_witness :
    (1, GrowthVal.val (((300:ℚ) - 100) / 100 * 100))
      ∈ yoy_growth (yearly_trend cEx)
    ∧ ((300:ℚ) - 100) / 100 * 100 = 200 := by
  constructor
  · exact (yoy_growth_formula (yearly_trend cEx) (by decide) 1 300 100
      (by decide) (by decide) (by decide)).1 (by norm_num)
  · norm_num

/-- C2 counterexample: when the prior-year January value is zero (an
input row with Sales 0), the growth cell is positive infinity, not a null
"no growth value": the claim's zero-denominator clause fails. -/
theorem yoy_growth_zero_prior_inf :
    pivotCell (yearly_trend (clean_data psEx pdEx rawZero)) 1 2023 = some 0
    ∧ yoy_growth (yearly_trend (clean_data psEx pdEx rawZero))
        = [(1, GrowthVal.posInf)]
    ∧ GrowthVal.posInf ≠ GrowthVal.nan := by decide

theorem mem_monthly_trend_keys {df : List Row} {k : String} :
    k ∈ (monthly_trend df).map Prod.fst ↔ ∃ r ∈ df, r.Order_Month = some k := by
  rw [monthly_trend, ((perm_sortOrd leKey _).map Prod.fst).mem_iff,
    groupSum_keys, mem_dedupFirst]
  constructor
  · intro h
    rcases List.mem_map.mp h with ⟨p, hp, hk⟩
    rcases List.mem_filterMap.mp hp with ⟨r, hr, hf⟩
    rcases Option.map_eq_some'.mp hf with ⟨k', hk', he⟩
    refine ⟨r, hr, ?_⟩
    rw [hk', ← hk, ← he]
  · rintro ⟨r, hr, hom⟩
    refine List.mem_map.mpr ⟨(k, r.Sales), ?_, rfl⟩
    exact List.mem_filterMap.mpr ⟨r, hr, by rw [hom]; rfl⟩

/-- C4 (amended): the monthly_trend output is sorted ascending by its
year-month key, and a key occurs in it exactly when it is the rendered
(year, month) pair of some cleaned row, or it is the string "NaT" and
some cleaned row has a null order date - so rows with null dates DO give
rise to one extra key, the "NaT" group. -/
theorem monthly_trend_keys_spec (psales : String → Option ℚ)
    (pdate : String → Option Date) (raw : List RawRow) :
    (monthly_trend (clean_data psales pdate raw)).Pairwise leKey
    ∧ ∀ k, k ∈ (monthly_trend (clean_data psales pdate raw)).map Prod.fst ↔
        ((∃ r ∈ clean_data psales pdate raw, ∃ y m,
            r.Year = some y ∧ r.Month = some m ∧ k = fmtPair y m)
         ∨ (k = ("NaT")
            ∧ ∃ r ∈ clean_data psales pdate raw, r.Order_Date = none)) := by
  refine ⟨pairwise_sortOrd leKey leKey_total leKey_trans _, ?_⟩
  intro k
  rw [mem_monthly_trend_keys]
  constructor
  · rintro ⟨r, hr, hom⟩
    rcases clean_data_row_shape hr with ⟨d, _, hy, hm, hom'⟩ | ⟨hd, _, _, hom'⟩
    · left
      refine ⟨r, hr, d.year, d.month, hy, hm, ?_⟩
      rw [hom] at hom'
      exact Option.some.inj hom'
    · right
      rw [hom] at hom'
      exact ⟨Option.some.inj hom', r, hr, hd⟩
  · rintro (⟨r, hr, y, m, hy, hm, hk⟩ | ⟨hk, r, hr, hd⟩)
    · rcases clean_data_row_shape hr with ⟨d, _, hy', hm', hom'⟩ | ⟨_, hy', _, _⟩
      · refine ⟨r, hr, ?_⟩
        have hyy : y = d.year := by
          rw [hy] at hy'
          exact Option.some.inj hy'
        have hmm : m = d.month := by
          rw [hm] at hm'
          exact Option.some.inj hm'
        rw [hom', hk, fmtYM, hyy, hmm]
      · rw [hy'] at hy
        cases hy
    · rcases clean_data_row_shape hr with ⟨d, hd', _, _, _⟩ | ⟨_, _, _, hom'⟩
      · rw [hd] at hd'
        cases hd'
      · exact ⟨r, hr, by rw [hom', hk]⟩

/-- C4 witness: on the spec's example input, the January 2023 key is
present because a cleaned row carries year 2023 and month 1. -/
theorem monthly_trend_keys_spec_witness :
    ("2023-01") ∈ (monthly_trend cEx).map Prod.fst := by
  exact ((monthly_trend_keys_spec psEx pdEx rawEx).2 ("2023-01")).mpr
    (Or.inl ⟨deriveRow pdEx ⟨("2023-01-05"), ("100"), ("East"), ("C1"), ("Alice")⟩ 100,
      by decide, 2023, 1, by decide, by decide, by decide⟩)

/-- C4 counterexample: with one unparseable date in the input, the key
"NaT" appears in the monthly_trend output although no (year, month) pair
of the cleaned data renders to it - the key set is strictly larger than
the set of rendered distinct (year, month) pairs. -/
theorem monthly_trend_nat_key_extra :
    ("NaT") ∈ (monthly_trend (clean_data psEx pdEx rawNat)).map Prod.fst
    ∧ ("NaT") ∉ (clean_data psEx pdEx rawNat).filterMap
        (fun r => match r.Year, r.Month with
          | some y, some m => some (fmtPair y m)
          | _, _ => none) := by decide

/-- C9 witness: an input holding the same record twice cleans to a table
where that record's derived form appears exactly once. -/
theorem clean_data_dedup_spec_witness :
    (clean_data psEx pdEx rawDup).count
      (deriveRow pdEx ⟨("2023-01-05"), ("100"), ("East"), ("C1"), ("Alice")⟩ 100)
      = 1 := by
  exact (clean_data_dedup_spec psEx pdEx rawDup).2
    ⟨("2023-01-05"), ("100"), ("East"), ("C1"), ("Alice")⟩ (by decide) 100 (by decide)
